import Mathlib

/-!
Verification of the SDL3 hint accessor (`src/sdl3/hint.rs`).

Rust strings are embedded as their UTF-8 byte sequences (`List Nat`); a
`&str` is valid UTF-8 by construction, which the theorems carry as an
explicit `utf8Valid` hypothesis where it matters.  Panics
(`CString::new(..).unwrap()`, `str::from_utf8(..).unwrap()`) are embedded
as `none` of an `Option` result.  The external SDL hint store is not part
of the source tree; it is modelled from the specification as an
association list from key to (value, priority), with the documented
precedence rule.
-/

namespace hint

/-- A UTF-8 continuation byte: `0x80 ≤ b ≤ 0xBF`. -/
def contOk (b : Nat) : Bool := 0x80 ≤ b && b ≤ 0xBF

/-- Embedding of Rust `str::from_utf8`'s success predicate: the standard
UTF-8 validation automaton (rejecting overlongs, surrogates and
code points above `U+10FFFF`), on the byte sequence. -/
def utf8Valid : List Nat → Bool
  | [] => true
  | b :: t =>
    if b ≤ 0x7F then utf8Valid t
    else if 0xC2 ≤ b && b ≤ 0xDF then
      match t with
      | b1 :: t1 => contOk b1 && utf8Valid t1
      | [] => false
    else if b == 0xE0 then
      match t with
      | b1 :: b2 :: t2 => (0xA0 ≤ b1 && b1 ≤ 0xBF) && contOk b2 && utf8Valid t2
      | _ => false
    else if (0xE1 ≤ b && b ≤ 0xEC) || b == 0xEE || b == 0xEF then
      match t with
      | b1 :: b2 :: t2 => contOk b1 && contOk b2 && utf8Valid t2
      | _ => false
    else if b == 0xED then
      match t with
      | b1 :: b2 :: t2 => (0x80 ≤ b1 && b1 ≤ 0x9F) && contOk b2 && utf8Valid t2
      | _ => false
    else if b == 0xF0 then
      match t with
      | b1 :: b2 :: b3 :: t3 =>
          (0x90 ≤ b1 && b1 ≤ 0xBF) && contOk b2 && contOk b3 && utf8Valid t3
      | _ => false
    else if 0xF1 ≤ b && b ≤ 0xF3 then
      match t with
      | b1 :: b2 :: b3 :: t3 => contOk b1 && contOk b2 && contOk b3 && utf8Valid t3
      | _ => false
    else if b == 0xF4 then
      match t with
      | b1 :: b2 :: b3 :: t3 =>
          (0x80 ≤ b1 && b1 ≤ 0x8F) && contOk b2 && contOk b3 && utf8Valid t3
      | _ => false
    else false

/-- The bytes of an ASCII literal appearing in the source (`"1"`, `"0"`,
hint name constants); every character is assumed ASCII so each char is
one byte. -/
def asciiBytes (s : String) : List Nat := s.toList.map Char.toNat

/-- Embedding of `CString::new`: succeeds with the same bytes iff no
interior null byte is present (`hint.rs` lines 82-83, 96, 115-116 call it
followed by `.unwrap()`, so failure is a panic). -/
def cstringNew (s : List Nat) : Option (List Nat) :=
  match s.contains 0 with
  | true => none
  | false => some s

/-- The `Hint` priority enumeration (`hint.rs` lines 7-11). -/
inductive Hint where
  | Default
  | Normal
  | Override
deriving DecidableEq

/-- Modelled from the spec: the external library's ordinal for `Default`
priority.  The concrete wire values are owned by the external library
(`sys::hints`, not under `src/`); the spec fixes only that they are three
fixed integers ordered low→high `Default < Normal < Override`. -/
def SDL_HINT_DEFAULT : Nat := 0

/-- Modelled from the spec: the external library's ordinal for `Normal`
priority. -/
def SDL_HINT_NORMAL : Nat := 1

/-- Modelled from the spec: the external library's ordinal for `Override`
priority. -/
def SDL_HINT_OVERRIDE : Nat := 2

/-- One entry of the external hint store: a value (byte string) together
with the priority at which it was set. -/
structure HintEntry where
  value : List Nat
  priority : Nat
deriving DecidableEq

/-- Modelled from the spec: the process-wide configuration store, keyed
by hint name. -/
abbrev HintStore := List (List Nat × HintEntry)

/-- Association-list lookup in the store. -/
def storeLookup : HintStore → List Nat → Option HintEntry
  | [], _ => none
  | (k', e) :: t, k => if k' = k then some e else storeLookup t k

/-- Association-list insert/replace in the store. -/
def storeInsert : HintStore → List Nat → HintEntry → HintStore
  | [], k, e => [(k, e)]
  | (k', e') :: t, k, e =>
      if k' = k then (k, e) :: t else (k', e') :: storeInsert t k e

/-- Modelled from the spec: `SDL_SetHintWithPriority` of the external
store.  A set at priority P overwrites an existing entry iff P ≥ the
entry's current priority, or the entry is unset; it returns whether the
value was applied (`sys::hints::SDL_SetHintWithPriority`, not under
`src/`). -/
def SDL_SetHintWithPriority (st : HintStore) (name value : List Nat)
    (priority : Nat) : Bool × HintStore :=
  match storeLookup st name with
  | none => (true, storeInsert st name ⟨value, priority⟩)
  | some e =>
      if e.priority ≤ priority then
        (true, storeInsert st name ⟨value, priority⟩)
      else (false, st)

/-- Modelled from the spec: `SDL_SetHint` of the external store; the
unprioritized entry point matches the store's own default, a set at
`Normal` priority (`sys::hints::SDL_SetHint`, not under `src/`). -/
def SDL_SetHint (st : HintStore) (name value : List Nat) : Bool × HintStore :=
  SDL_SetHintWithPriority st name value SDL_HINT_NORMAL

/-- Modelled from the spec: `SDL_GetHint` of the external store; returns
the stored bytes, or the null-pointer sentinel (here `none`) exactly when
the key is unset — never the empty string for absence
(`sys::hints::SDL_GetHint`, not under `src/`). -/
def SDL_GetHint (st : HintStore) (name : List Nat) : Option (List Nat) :=
  (storeLookup st name).map HintEntry.value

/-- Store well-formedness: every entry was set through the API, so its
value is valid UTF-8 (it came from a Rust `&str`) and its priority is one
of the three enumeration ordinals. -/
def storeWF (st : HintStore) : Prop :=
  ∀ p ∈ st, utf8Valid p.2.value = true ∧ p.2.priority ≤ SDL_HINT_OVERRIDE

instance (st : HintStore) : Decidable (storeWF st) := by
  unfold storeWF
  exact List.decidableBAll _ st

/-- Embedding of `hint.rs` `set` (lines 81-90): convert `name` and
`value` to C strings (panicking on an interior null byte), then call
`SDL_SetHint`.  `none` is the panic. -/
def set (st : HintStore) (name value : List Nat) : Option (Bool × HintStore) :=
  match cstringNew name with
  | none => none
  | some n =>
    match cstringNew value with
    | none => none
    | some v => some (SDL_SetHint st n v)

/-- Embedding of the `match *priority` in `hint.rs` lines 118-122: the
closed case analysis from the `Hint` enumeration to the external
library's ordinals. -/
def priorityVal : Hint → Nat
  | Hint.Normal => SDL_HINT_NORMAL
  | Hint.Override => SDL_HINT_OVERRIDE
  | Hint.Default => SDL_HINT_DEFAULT

/-- Embedding of `hint.rs` `set_with_priority` (lines 113-131): convert
the strings (panicking on an interior null byte), translate the priority
by `priorityVal`, and call `SDL_SetHintWithPriority`. -/
def set_with_priority (st : HintStore) (name value : List Nat)
    (priority : Hint) : Option (Bool × HintStore) :=
  match cstringNew name with
  | none => none
  | some n =>
    match cstringNew value with
    | none => none
    | some v => some (SDL_SetHintWithPriority st n v (priorityVal priority))

/-- Embedding of `hint.rs` `get` (lines 93-111): convert `name`
(panicking on an interior null byte), call `SDL_GetHint`; a null result
is `None`, otherwise the bytes are UTF-8-checked (`str::from_utf8` +
`.unwrap()`: invalid UTF-8 is a panic) and returned as an owned string.
The outer `Option` is the panic, the inner one is Rust's
`Option<String>`. -/
def get (st : HintStore) (name : List Nat) : Option (Option (List Nat)) :=
  match cstringNew name with
  | none => none
  | some n =>
    match SDL_GetHint st n with
    | none => some none
    | some bytes => if utf8Valid bytes then some (some bytes) else none

/-- State-threaded embedding of `get`, recording the store handed to each
foreign call and the store after it: `SDL_GetHint` is a read, so the
store passes through unchanged. -/
def getThreaded (st : HintStore) (name : List Nat) :
    Option (Option (List Nat) × HintStore) :=
  match cstringNew name with
  | none => none
  | some n =>
    match SDL_GetHint st n with
    | none => some (none, st)
    | some bytes => if utf8Valid bytes then some (some bytes, st) else none

/-- Modelled from the spec: the key constant
`names::VIDEO_MINIMIZE_ON_FOCUS_LOSS` (the `names` module is not under
`src/`); the official hint name from the SDL documentation the source
links to. -/
def VIDEO_MINIMIZE_ON_FOCUS_LOSS : List Nat :=
  asciiBytes "SDL_VIDEO_MINIMIZE_ON_FOCUS_LOSS"

/-- Embedding of `set_video_minimize_on_focus_loss` (lines 28-33):
translate the `Bool` to `"1"`/`"0"` and call `set` on the key. -/
def set_video_minimize_on_focus_loss (st : HintStore) (value : Bool) :
    Option (Bool × HintStore) :=
  set st VIDEO_MINIMIZE_ON_FOCUS_LOSS
    (if value then asciiBytes "1" else asciiBytes "0")

/-- Embedding of `set_video_minimize_on_focus_loss_with_priority`
(lines 50-56): translate the `Bool` to `"1"`/`"0"` and call
`set_with_priority` on the key. -/
def set_video_minimize_on_focus_loss_with_priority (st : HintStore)
    (value : Bool) (priority : Hint) : Option (Bool × HintStore) :=
  set_with_priority st VIDEO_MINIMIZE_ON_FOCUS_LOSS
    (if value then asciiBytes "1" else asciiBytes "0") priority

/-- Embedding of `get_video_minimize_on_focus_loss` (lines 73-78): `get`
of the key; absent means `true` (the documented default), otherwise the
result is string equality with the literal `"1"`. -/
def get_video_minimize_on_focus_loss (st : HintStore) : Option Bool :=
  match get st VIDEO_MINIMIZE_ON_FOCUS_LOSS with
  | none => none
  | some none => some true
  | some (some value) => some (value = asciiBytes "1")

theorem storeLookup_storeInsert_self (st : HintStore) (k : List Nat)
    (e : HintEntry) : storeLookup (storeInsert st k e) k = some e := by
  induction st with
  | nil => simp [storeInsert, storeLookup]
  | cons p t ih =>
      obtain ⟨k', e'⟩ := p
      by_cases h : k' = k
      · simp [storeInsert, storeLookup, h]
      · simp [storeInsert, storeLookup, h, ih]

theorem storeWF_storeInsert (st : HintStore) (k : List Nat) (e : HintEntry)
    (hst : storeWF st) (hv : utf8Valid e.value = true)
    (hp : e.priority ≤ SDL_HINT_OVERRIDE) :
    storeWF (storeInsert st k e) := by
  induction st with
  | nil =>
      intro p hp'
      simp [storeInsert] at hp'
      subst hp'
      exact ⟨hv, hp⟩
  | cons q t ih =>
      obtain ⟨k', e'⟩ := q
      have hq : utf8Valid e'.value = true ∧ e'.priority ≤ SDL_HINT_OVERRIDE :=
        hst (k', e') (List.mem_cons_self _ _)
      have ht : storeWF t := fun p hmem => hst p (List.mem_cons_of_mem _ hmem)
      by_cases h : k' = k
      · intro p hp'
        simp [storeInsert, h] at hp'
        rcases hp' with hp' | hp'
        · subst hp'; exact ⟨hv, hp⟩
        · exact ht p hp'
      · intro p hp'
        simp [storeInsert, h] at hp'
        rcases hp' with hp' | hp'
        · subst hp'; exact hq
        · exact ih ht p hp'

theorem storeLookup_mem (st : HintStore) (k : List Nat) (e : HintEntry)
    (h : storeLookup st k = some e) : (k, e) ∈ st := by
  induction st with
  | nil => simp [storeLookup] at h
  | cons p t ih =>
      obtain ⟨k', e'⟩ := p
      by_cases hk : k' = k
      · subst hk
        simp [storeLookup] at h
        subst h
        exact List.mem_cons_self _ _
      · simp [storeLookup, hk] at h
        exact List.mem_cons_of_mem _ (ih h)

theorem set_eq (st : HintStore) (k v : List Nat)
    (hk : k.contains 0 = false) (hv : v.contains 0 = false) :
    set st k v = some (SDL_SetHintWithPriority st k v SDL_HINT_NORMAL) := by
  unfold set cstringNew SDL_SetHint
  rw [hk, hv]

theorem set_with_priority_eq (st : HintStore) (k v : List Nat) (p : Hint)
    (hk : k.contains 0 = false) (hv : v.contains 0 = false) :
    set_with_priority st k v p =
      some (SDL_SetHintWithPriority st k v (priorityVal p)) := by
  unfold set_with_priority cstringNew
  rw [hk, hv]

theorem get_eq_of_lookup (st : HintStore) (k : List Nat) (e : HintEntry)
    (hk : k.contains 0 = false) (h : storeLookup st k = some e)
    (hv : utf8Valid e.value = true) : get st k = some (some e.value) := by
  have hk' : ¬ (0 ∈ k) := by simpa using hk
  simp [get, cstringNew, SDL_GetHint, hk', h, hv]

theorem get_eq_of_lookup_none (st : HintStore) (k : List Nat)
    (hk : k.contains 0 = false) (h : storeLookup st k = none) :
    get st k = some none := by
  have hk' : ¬ (0 ∈ k) := by simpa using hk
  simp [get, cstringNew, SDL_GetHint, hk', h]

/-- Claim C1: for keys `k` and values `v` free of null bytes, `set(k, v)`
followed immediately by `get(k)` returns `Some(v)` when no higher-priority
value is already stored at `k`; when a higher-priority value is already
stored, `set(k, v)` returns `false` and `get(k)` returns the previously
stored value. -/
theorem claim1 (st : HintStore) (k v : List Nat)
    (hk : k.contains 0 = false) (hv : v.contains 0 = false)
    (hvu : utf8Valid v = true) (hwf : storeWF st) :
    ((∀ e, storeLookup st k = some e → e.priority ≤ SDL_HINT_NORMAL) →
      ∃ st2, set st k v = some (true, st2) ∧ get st2 k = some (some v)) ∧
    (∀ e, storeLookup st k = some e → SDL_HINT_NORMAL < e.priority →
      set st k v = some (false, st) ∧ get st k = some (some e.value)) := by
  constructor
  · intro hle
    refine ⟨storeInsert st k ⟨v, SDL_HINT_NORMAL⟩, ?_, ?_⟩
    · rw [set_eq st k v hk hv]
      unfold SDL_SetHintWithPriority
      cases hcase : storeLookup st k with
      | none => rfl
      | some e => simp [hle e hcase]
    · exact get_eq_of_lookup _ _ _ hk (storeLookup_storeInsert_self st k _) hvu
  · intro e he hgt
    have hnle : ¬ e.priority ≤ SDL_HINT_NORMAL := Nat.not_le.mpr hgt
    constructor
    · rw [set_eq st k v hk hv]
      unfold SDL_SetHintWithPriority
      rw [he]
      simp [hnle]
    · exact get_eq_of_lookup st k e hk he (hwf (k, e) (storeLookup_mem st k e he)).1

/-- Witness for C1 at concrete inputs: the empty store, key `"APP_X"` and
value `"hello"`. -/
theorem claim1_witness :
    (asciiBytes "APP_X").contains 0 = false ∧
    (asciiBytes "hello").contains 0 = false ∧
    utf8Valid (asciiBytes "hello") = true ∧
    storeWF [] ∧
    (((∀ e, storeLookup [] (asciiBytes "APP_X") = some e →
          e.priority ≤ SDL_HINT_NORMAL) →
        ∃ st2, set [] (asciiBytes "APP_X") (asciiBytes "hello") =
            some (true, st2) ∧
          get st2 (asciiBytes "APP_X") = some (some (asciiBytes "hello"))) ∧
      (∀ e, storeLookup [] (asciiBytes "APP_X") = some e →
        SDL_HINT_NORMAL < e.priority →
        set [] (asciiBytes "APP_X") (asciiBytes "hello") = some (false, []) ∧
        get [] (asciiBytes "APP_X") = some (some e.value))) :=
  ⟨by decide, by decide, by decide, by decide,
    claim1 [] (asciiBytes "APP_X") (asciiBytes "hello")
      (by decide) (by decide) (by decide) (by decide)⟩

/-- Claim C2: `set_with_priority(k, v, Override)` succeeds regardless of
the priority previously stored at `k`; a subsequent `set(k, v2)` at the
implicit `Normal` priority fails and leaves the value at `k` equal to `v`,
so `get(k)` still returns `Some(v)`. -/
theorem claim2 (st : HintStore) (k v v2 : List Nat)
    (hk : k.contains 0 = false) (hv : v.contains 0 = false)
    (hv2 : v2.contains 0 = false) (hvu : utf8Valid v = true)
    (hwf : storeWF st) :
    ∃ st2, set_with_priority st k v Hint.Override = some (true, st2) ∧
      set st2 k v2 = some (false, st2) ∧
      get st2 k = some (some v) := by
  refine ⟨storeInsert st k ⟨v, SDL_HINT_OVERRIDE⟩, ?_, ?_, ?_⟩
  · rw [set_with_priority_eq st k v Hint.Override hk hv]
    unfold SDL_SetHintWithPriority
    cases hcase : storeLookup st k with
    | none => rfl
    | some e =>
        have hle : e.priority ≤ SDL_HINT_OVERRIDE :=
          (hwf (k, e) (storeLookup_mem st k e hcase)).2
        simp [priorityVal, hle]
  · rw [set_eq _ k v2 hk hv2]
    unfold SDL_SetHintWithPriority
    rw [storeLookup_storeInsert_self st k ⟨v, SDL_HINT_OVERRIDE⟩]
    simp [SDL_HINT_NORMAL, SDL_HINT_OVERRIDE]
  · exact get_eq_of_lookup _ _ _ hk (storeLookup_storeInsert_self st k _) hvu

/-- Witness for C2 at concrete inputs: the empty store, key `"APP_X"`,
values `"a"` and `"b"`. -/
theorem claim2_witness :
    (asciiBytes "APP_X").contains 0 = false ∧
    (asciiBytes "a").contains 0 = false ∧
    (asciiBytes "b").contains 0 = false ∧
    utf8Valid (asciiBytes "a") = true ∧
    storeWF [] ∧
    (∃ st2, set_with_priority [] (asciiBytes "APP_X") (asciiBytes "a")
          Hint.Override = some (true, st2) ∧
      set st2 (asciiBytes "APP_X") (asciiBytes "b") = some (false, st2) ∧
      get st2 (asciiBytes "APP_X") = some (some (asciiBytes "a"))) :=
  ⟨by decide, by decide, by decide, by decide, by decide,
    claim2 [] (asciiBytes "APP_X") (asciiBytes "a") (asciiBytes "b")
      (by decide) (by decide) (by decide) (by decide) (by decide)⟩

/-- Claim C3: for a key free of null bytes, `get(k)` returns `None`
exactly when the external store has no value at `k` (the null-pointer
sentinel — never the empty string); when a value is present it returns
`Some` of a copy of it; and it panics when the store hands back bytes
that are not valid UTF-8. -/
theorem claim3 (st : HintStore) (k : List Nat) (hk : k.contains 0 = false) :
    (get st k = some none ↔ storeLookup st k = none) ∧
    (∀ e, storeLookup st k = some e → utf8Valid e.value = true →
      get st k = some (some e.value)) ∧
    (∀ bytes, SDL_GetHint st k = some bytes → utf8Valid bytes = false →
      get st k = none) := by
  have hk' : ¬ (0 ∈ k) := by simpa using hk
  refine ⟨⟨?_, ?_⟩, ?_, ?_⟩
  · intro hget
    cases hcase : storeLookup st k with
    | none => rfl
    | some e =>
        cases hval : utf8Valid e.value with
        | true =>
            rw [get_eq_of_lookup st k e hk hcase hval] at hget
            simp at hget
        | false =>
            have hnone : get st k = none := by
              simp [get, cstringNew, SDL_GetHint, hk', hcase, hval]
            rw [hnone] at hget
            simp at hget
  · intro hnone
    exact get_eq_of_lookup_none st k hk hnone
  · intro e he hval
    exact get_eq_of_lookup st k e hk he hval
  · intro bytes hb hval
    unfold SDL_GetHint at hb
    cases hcase : storeLookup st k with
    | none => rw [hcase] at hb; simp at hb
    | some e =>
        rw [hcase] at hb
        simp at hb
        subst hb
        simp [get, cstringNew, SDL_GetHint, hk', hcase, hval]

/-- Witness for C3 at concrete inputs: a store whose entry at key `"K"`
holds the invalid UTF-8 byte `0xFF`, so `get` panics. -/
theorem claim3_witness :
    get [([75], HintEntry.mk [255] 1)] (asciiBytes "K") = none :=
  (claim3 [([75], HintEntry.mk [255] 1)] (asciiBytes "K")
    (by decide)).2.2 [255] (by decide) (by decide)

/-- Claim C4: a null byte embedded in `key` or `value` makes `set`,
`set_with_priority` and `get` fail fatally (the panic, embedded as the
outer `none`), which is distinct from the boolean rejection `false` and
from the absent-key inner `none`. -/
theorem claim4 (st : HintStore) (k v : List Nat) :
    (k.contains 0 = true ∨ v.contains 0 = true → set st k v = none) ∧
    (∀ p, k.contains 0 = true ∨ v.contains 0 = true →
      set_with_priority st k v p = none) ∧
    (k.contains 0 = true → get st k = none) := by
  refine ⟨?_, ?_, ?_⟩
  · intro h
    unfold set cstringNew
    rcases h with h | h
    · rw [h]
    · cases hc : List.contains k 0 with
      | true => rfl
      | false => rw [h]
  · intro p h
    unfold set_with_priority cstringNew
    rcases h with h | h
    · rw [h]
    · cases hc : List.contains k 0 with
      | true => rfl
      | false => rw [h]
  · intro h
    unfold get cstringNew
    rw [h]

/-- Witness for C4 at concrete inputs: the key `[0]` (a lone null byte)
makes all three operations panic. -/
theorem claim4_witness :
    set [] [0] [65] = none ∧
    set_with_priority [] [0] [65] Hint.Normal = none ∧
    get [] [0] = none :=
  ⟨(claim4 [] [0] [65]).1 (Or.inl (by decide)),
    (claim4 [] [0] [65]).2.1 Hint.Normal (Or.inl (by decide)),
    (claim4 [] [0] [65]).2.2 (by decide)⟩

/-- Claim C5: `set_with_priority` forwards the caller's priority to the
external store unchanged: the closed case analysis maps the three `Hint`
variants exactly to the external library's ordinals, and for every
priority argument the ordinal handed to the foreign call is the one the
external library defines for that variant, never an upgraded or
downgraded one. -/
theorem claim5 (st : HintStore) (k v : List Nat) (p : Hint)
    (hk : k.contains 0 = false) (hv : v.contains 0 = false) :
    priorityVal Hint.Default = SDL_HINT_DEFAULT ∧
    priorityVal Hint.Normal = SDL_HINT_NORMAL ∧
    priorityVal Hint.Override = SDL_HINT_OVERRIDE ∧
    set_with_priority st k v p =
      some (SDL_SetHintWithPriority st k v (priorityVal p)) :=
  ⟨rfl, rfl, rfl, set_with_priority_eq st k v p hk hv⟩

/-- Witness for C5 at concrete inputs: the empty store, key `"A"`, value
`"B"`, `Default` priority. -/
theorem claim5_witness :
    (asciiBytes "A").contains 0 = false ∧
    (asciiBytes "B").contains 0 = false ∧
    (priorityVal Hint.Default = SDL_HINT_DEFAULT ∧
      priorityVal Hint.Normal = SDL_HINT_NORMAL ∧
      priorityVal Hint.Override = SDL_HINT_OVERRIDE ∧
      set_with_priority [] (asciiBytes "A") (asciiBytes "B") Hint.Default =
        some (SDL_SetHintWithPriority [] (asciiBytes "A") (asciiBytes "B")
          (priorityVal Hint.Default))) :=
  ⟨by decide, by decide,
    claim5 [] (asciiBytes "A") (asciiBytes "B") Hint.Default
      (by decide) (by decide)⟩

/-- Claim C6: `set(key, value)` has the same observable effect on the
external store and the same boolean result as
`set_with_priority(key, value, Normal)`: the unprioritized path requests
the write at `Normal` priority. -/
theorem claim6 (st : HintStore) (k v : List Nat) :
    set st k v = set_with_priority st k v Hint.Normal := by
  rfl

/-- The hint name constant contains no null byte. -/
theorem vmofl_key_no_nul : VIDEO_MINIMIZE_ON_FOCUS_LOSS.contains 0 = false := by
  decide

theorem gvm_of_lookup_none (st : HintStore)
    (h : storeLookup st VIDEO_MINIMIZE_ON_FOCUS_LOSS = none) :
    get_video_minimize_on_focus_loss st = some true := by
  unfold get_video_minimize_on_focus_loss
  rw [get_eq_of_lookup_none st _ vmofl_key_no_nul h]

theorem gvm_of_lookup (st : HintStore) (e : HintEntry)
    (h : storeLookup st VIDEO_MINIMIZE_ON_FOCUS_LOSS = some e)
    (hv : utf8Valid e.value = true) :
    get_video_minimize_on_focus_loss st =
      some (decide (e.value = asciiBytes "1")) := by
  unfold get_video_minimize_on_focus_loss
  rw [get_eq_of_lookup st _ e vmofl_key_no_nul h hv]

/-- Claim C7: `get_video_minimize_on_focus_loss()` returns `true` when
`get` on its key returns `None` (the documented default); otherwise it
returns `true` exactly when the stored string equals the literal `"1"`,
and every other stored string yields `false` — the only test is string
equality with `"1"`, not a boolean parse. -/
theorem claim7 (st : HintStore) (hwf : storeWF st) :
    (storeLookup st VIDEO_MINIMIZE_ON_FOCUS_LOSS = none →
      get_video_minimize_on_focus_loss st = some true) ∧
    (∀ e, storeLookup st VIDEO_MINIMIZE_ON_FOCUS_LOSS = some e →
      (get_video_minimize_on_focus_loss st = some true ↔
        e.value = asciiBytes "1") ∧
      (e.value ≠ asciiBytes "1" →
        get_video_minimize_on_focus_loss st = some false)) := by
  constructor
  · exact gvm_of_lookup_none st
  · intro e he
    have hv : utf8Valid e.value = true :=
      (hwf _ (storeLookup_mem st _ e he)).1
    have heq := gvm_of_lookup st e he hv
    constructor
    · rw [heq]
      constructor
      · intro hh
        simp at hh
        exact hh
      · intro hh
        simp [hh]
    · intro hne
      rw [heq]
      simp [hne]

/-- Witness for C7 at a concrete input: a well-formed store holding the
string `"0"` at the hint's key, on which the getter returns `false`. -/
theorem claim7_witness :
    storeWF [(VIDEO_MINIMIZE_ON_FOCUS_LOSS,
        HintEntry.mk (asciiBytes "0") 1)] ∧
    get_video_minimize_on_focus_loss
      [(VIDEO_MINIMIZE_ON_FOCUS_LOSS, HintEntry.mk (asciiBytes "0") 1)] =
      some false :=
  ⟨by decide,
    ((claim7 _ (by decide)).2 (HintEntry.mk (asciiBytes "0") 1)
      (by decide)).2 (by decide)⟩

/-- Claim C8: round-trip of the boolean wrapper starting from a store
where the hint is unset: the getter returns `true`; after the setter is
called with `false` (writing the literal `"0"` through `set`) it returns
`false`; after the setter is called with `true` (writing the literal
`"1"`) it returns `true`. -/
theorem claim8 (st : HintStore)
    (h : storeLookup st VIDEO_MINIMIZE_ON_FOCUS_LOSS = none) :
    get_video_minimize_on_focus_loss st = some true ∧
    ∃ st1, set_video_minimize_on_focus_loss st false = some (true, st1) ∧
      get_video_minimize_on_focus_loss st1 = some false ∧
      ∃ st2, set_video_minimize_on_focus_loss st1 true = some (true, st2) ∧
        get_video_minimize_on_focus_loss st2 = some true := by
  refine ⟨gvm_of_lookup_none st h, ?_⟩
  refine ⟨storeInsert st VIDEO_MINIMIZE_ON_FOCUS_LOSS
      ⟨asciiBytes "0", SDL_HINT_NORMAL⟩, ?_, ?_, ?_⟩
  · have e1 : set_video_minimize_on_focus_loss st false =
        set st VIDEO_MINIMIZE_ON_FOCUS_LOSS (asciiBytes "0") := rfl
    rw [e1, set_eq st _ _ vmofl_key_no_nul (by decide)]
    unfold SDL_SetHintWithPriority
    rw [h]
  · rw [gvm_of_lookup _ _
      (storeLookup_storeInsert_self st VIDEO_MINIMIZE_ON_FOCUS_LOSS
        ⟨asciiBytes "0", SDL_HINT_NORMAL⟩) (by decide)]
    decide
  · refine ⟨storeInsert
        (storeInsert st VIDEO_MINIMIZE_ON_FOCUS_LOSS
          ⟨asciiBytes "0", SDL_HINT_NORMAL⟩)
        VIDEO_MINIMIZE_ON_FOCUS_LOSS
        ⟨asciiBytes "1", SDL_HINT_NORMAL⟩, ?_, ?_⟩
    · have e2 : ∀ stx, set_video_minimize_on_focus_loss stx true =
          set stx VIDEO_MINIMIZE_ON_FOCUS_LOSS (asciiBytes "1") := fun _ => rfl
      rw [e2, set_eq _ _ _ vmofl_key_no_nul (by decide)]
      unfold SDL_SetHintWithPriority
      rw [storeLookup_storeInsert_self st VIDEO_MINIMIZE_ON_FOCUS_LOSS
        ⟨asciiBytes "0", SDL_HINT_NORMAL⟩]
      simp
    · rw [gvm_of_lookup _ _
        (storeLookup_storeInsert_self _ VIDEO_MINIMIZE_ON_FOCUS_LOSS
          ⟨asciiBytes "1", SDL_HINT_NORMAL⟩) (by decide)]
      decide

/-- Witness for C8 at a concrete input: the empty store. -/
theorem claim8_witness :
    storeLookup [] VIDEO_MINIMIZE_ON_FOCUS_LOSS = none ∧
    (get_video_minimize_on_focus_loss [] = some true ∧
      ∃ st1, set_video_minimize_on_focus_loss [] false = some (true, st1) ∧
        get_video_minimize_on_focus_loss st1 = some false ∧
        ∃ st2, set_video_minimize_on_focus_loss st1 true = some (true, st2) ∧
          get_video_minimize_on_focus_loss st2 = some true) :=
  ⟨by decide, claim8 [] (by decide)⟩

/-- Claim C9: `get` performs only a read of the external store: the
state-threaded embedding hands back the store unchanged and agrees with
`get`, and the result is a function of the store's answer at call time
alone — no component-local cache, so two stores giving the same
`SDL_GetHint` answer give the same result. -/
theorem claim9 (st : HintStore) (k : List Nat) (hk : k.contains 0 = false) :
    (∀ r st2, getThreaded st k = some (r, st2) →
      st2 = st ∧ get st k = some r) ∧
    (getThreaded st k = none ↔ get st k = none) ∧
    (∀ stB, SDL_GetHint st k = SDL_GetHint stB k →
      get st k = get stB k) := by
  have hk' : ¬ (0 ∈ k) := by simpa using hk
  refine ⟨?_, ?_, ?_⟩
  · intro r st2 hr
    cases hcase : SDL_GetHint st k with
    | none =>
        simp [getThreaded, cstringNew, hk', hcase] at hr
        obtain ⟨h1, h2⟩ := hr
        subst h1; subst h2
        exact ⟨rfl, by simp [get, cstringNew, hk', hcase]⟩
    | some bytes =>
        cases hval : utf8Valid bytes with
        | false =>
            have hpanic : getThreaded st k = none := by
              simp [getThreaded, cstringNew, hk', hcase, hval]
            rw [hpanic] at hr
            simp at hr
        | true =>
            simp [getThreaded, cstringNew, hk', hcase, hval] at hr
            obtain ⟨h1, h2⟩ := hr
            subst h1; subst h2
            exact ⟨rfl, by simp [get, cstringNew, hk', hcase, hval]⟩
  · cases hcase : SDL_GetHint st k with
    | none => simp [getThreaded, get, cstringNew, hk', hcase]
    | some bytes =>
        cases hval : utf8Valid bytes with
        | true => simp [getThreaded, get, cstringNew, hk', hcase, hval]
        | false => simp [getThreaded, get, cstringNew, hk', hcase, hval]
  · intro stB heq
    cases hcase : SDL_GetHint stB k with
    | none =>
        rw [hcase] at heq
        simp [get, cstringNew, hk', heq, hcase]
    | some bytes =>
        rw [hcase] at heq
        simp [get, cstringNew, hk', heq, hcase]

/-- Witness for C9 at a concrete input: a one-entry store and the key
`"K"`. -/
theorem claim9_witness :
    (asciiBytes "K").contains 0 = false ∧
    ((∀ r st2, getThreaded [([75], HintEntry.mk [49] 1)] (asciiBytes "K") =
        some (r, st2) →
      st2 = [([75], HintEntry.mk [49] 1)] ∧
      get [([75], HintEntry.mk [49] 1)] (asciiBytes "K") = some r) ∧
    (getThreaded [([75], HintEntry.mk [49] 1)] (asciiBytes "K") = none ↔
      get [([75], HintEntry.mk [49] 1)] (asciiBytes "K") = none) ∧
    (∀ stB, SDL_GetHint [([75], HintEntry.mk [49] 1)] (asciiBytes "K") =
        SDL_GetHint stB (asciiBytes "K") →
      get [([75], HintEntry.mk [49] 1)] (asciiBytes "K") =
        get stB (asciiBytes "K"))) :=
  ⟨by decide, claim9 [([75], HintEntry.mk [49] 1)] (asciiBytes "K") (by decide)⟩

/-- Claim C10: the convenience wrappers never reach the fatal null-byte
path: the key constant and the literals `"1"`/`"0"` contain no null byte,
so both setters always return a value, and if the getter panics it is
only through the invalid-UTF-8 path, never the null-byte check. -/
theorem claim10 (st : HintStore) (value : Bool) (p : Hint) :
    VIDEO_MINIMIZE_ON_FOCUS_LOSS.contains 0 = false ∧
    (asciiBytes "1").contains 0 = false ∧
    (asciiBytes "0").contains 0 = false ∧
    (∃ r, set_video_minimize_on_focus_loss st value = some r) ∧
    (∃ r, set_video_minimize_on_focus_loss_with_priority st value p =
      some r) ∧
    (get_video_minimize_on_focus_loss st = none →
      ∃ bytes, SDL_GetHint st VIDEO_MINIMIZE_ON_FOCUS_LOSS = some bytes ∧
        utf8Valid bytes = false) := by
  refine ⟨vmofl_key_no_nul, by decide, by decide, ?_, ?_, ?_⟩
  · cases value
    · exact ⟨_, set_eq st _ (asciiBytes "0") vmofl_key_no_nul (by decide)⟩
    · exact ⟨_, set_eq st _ (asciiBytes "1") vmofl_key_no_nul (by decide)⟩
  · cases value
    · exact ⟨_, set_with_priority_eq st _ (asciiBytes "0") p
        vmofl_key_no_nul (by decide)⟩
    · exact ⟨_, set_with_priority_eq st _ (asciiBytes "1") p
        vmofl_key_no_nul (by decide)⟩
  · intro hget
    unfold get_video_minimize_on_focus_loss at hget
    cases hcase : get st VIDEO_MINIMIZE_ON_FOCUS_LOSS with
    | some o =>
        rw [hcase] at hget
        cases o with
        | none => simp at hget
        | some val => simp at hget
    | none =>
        cases hl : storeLookup st VIDEO_MINIMIZE_ON_FOCUS_LOSS with
        | none =>
            rw [get_eq_of_lookup_none st _ vmofl_key_no_nul hl] at hcase
            simp at hcase
        | some e =>
            cases hval : utf8Valid e.value with
            | true =>
                rw [get_eq_of_lookup st _ e vmofl_key_no_nul hl hval] at hcase
                simp at hcase
            | false =>
                exact ⟨e.value, by simp [SDL_GetHint, hl], hval⟩

/-- Witness for C10 at concrete inputs: the empty store, `true`,
`Override` priority. -/
theorem claim10_witness :
    VIDEO_MINIMIZE_ON_FOCUS_LOSS.contains 0 = false ∧
    (asciiBytes "1").contains 0 = false ∧
    (asciiBytes "0").contains 0 = false ∧
    (∃ r, set_video_minimize_on_focus_loss [] true = some r) ∧
    (∃ r, set_video_minimize_on_focus_loss_with_priority [] true
      Hint.Override = some r) ∧
    (get_video_minimize_on_focus_loss [] = none →
      ∃ bytes, SDL_GetHint [] VIDEO_MINIMIZE_ON_FOCUS_LOSS = some bytes ∧
        utf8Valid bytes = false) :=
  claim10 [] true Hint.Override

end hint
